import Mathlib

/-!
Verification of the OV-DINO gradio demo (`ovdino/demo/app.py`).

The demo is a thin orchestration layer: it splits a comma-separated category
string, cleans each phrase, runs the detector, serializes the detections to
plain records, and wires a small UI. We embed the request-handling fragment
shallowly: strings become `List Char`, Python `str.split(", ")` becomes a
recursive function with the same semantics, numeric scores and thresholds
become `ℚ`, and fallible steps (a Python `IndexError`) become `Option`.

Functions of the repository that live outside the demo file
(`clean_words_or_phrase` from detrex, `instances_to_coco_json` from the
vendored detectron2, `OVDINODemo.run_on_image` from `demo/predictors.py`) are
modelled from the specification, as marked in their doc comments.
-/

namespace OVDinoDemo

/-- Embedding of Python `text.split(", ")` (app.py line 132) on character
lists: scan left to right; each occurrence of the two-character separator
comma-space ends the current segment.  Python semantics: `"".split(", ")`
is `[""]`, and adjacent separators yield empty segments. -/
def splitCommaSpace : List Char → List (List Char)
  | [] => [[]]
  | [c] => [[c]]
  | c1 :: c2 :: rest =>
    if c1 = ',' ∧ c2 = ' ' then
      [] :: splitCommaSpace rest
    else
      match splitCommaSpace (c2 :: rest) with
      | [] => [[c1]]
      | seg :: segs => (c1 :: seg) :: segs

/-- Whether the two-character separator comma-space occurs contiguously in a
character list. -/
def containsCommaSpace : List Char → Bool
  | [] => false
  | [_] => false
  | c1 :: c2 :: rest => (c1 = ',' && c2 = ' ') || containsCommaSpace (c2 :: rest)

/-- Joining a list of segments with the comma-space separator: the inverse
direction of `splitCommaSpace`. -/
def joinCommaSpace : List (List Char) → List Char
  | [] => []
  | [seg] => seg
  | seg :: rest => seg ++ ',' :: ' ' :: joinCommaSpace rest

/-- Removes leading and trailing space characters. -/
def trimSpaces (s : List Char) : List Char :=
  ((s.dropWhile (fun c => c = ' ')).reverse.dropWhile (fun c => c = ' ')).reverse

/-- Modelled from the spec: `clean_words_or_phrase` (detrex.data.datasets),
part of the repository but not under src/.  Spec §4.1: cleaning "removes
leading/trailing whitespace and normalizes punctuation/casing artifacts …
without altering word order or removing semantically meaningful tokens".  We
model it as lower-casing followed by trimming surrounding whitespace; in
particular a segment that is empty or all spaces cleans to the empty phrase
and a plain word is left non-empty. -/
def cleanWordsOrPhrase (s : List Char) : List Char :=
  trimSpaces (s.map Char.toLower)

/-- The Category Normalizer at the start of `gradio_predict` (app.py lines
132-135): split the free text on comma-space, then clean every segment.  No
segment is dropped and no error is raised. -/
def categoryNames (text : List Char) : List (List Char) :=
  (splitCommaSpace text).map cleanWordsOrPhrase

/-- One detected instance as produced by the detector: a class index into the
CategoryList of the request, a confidence score, and a bounding box.  (Spec §3
"Prediction"; the mask added by the optional refiner does not affect the
claims below and is omitted.) -/
structure Prediction where
  classIndex : Nat
  score : ℚ
  box : ℚ × ℚ × ℚ × ℚ
deriving DecidableEq

/-- Modelled from the spec: the per-call confidence filtering inside
`OVDINODemo.run_on_image` (demo/predictors.py, part of the repository but not
under src/).  Spec §4.2: "the reference demo filters at call time via a
threshold parameter"; glossary: the threshold is the "minimum score required
for a Prediction to be considered valid output".  Given the model's raw
predictions, keep those whose score reaches the threshold. -/
def filterByThreshold (thr : ℚ) (preds : List Prediction) : List Prediction :=
  preds.filter (fun p => thr ≤ p.score)

/-- A serialized detection record.  `imageId = none` models the absence of the
`image_id` key from the Python dict (after `del`), `categoryName = none` its
absence before the demo adds it. -/
structure CocoRecord where
  imageId : Option Nat
  categoryId : Nat
  bbox : ℚ × ℚ × ℚ × ℚ
  score : ℚ
  categoryName : Option (List Char)
deriving DecidableEq

/-- Modelled from the spec: detectron2's `instances_to_coco_json` (vendored in
the repository but not under src/), called at app.py line 141 with image id 0.
Spec §3 "ResultRecord": "the externally visible serialized form of a
Prediction — category name …, score, box coordinates"; before the demo's own
loop runs, each record still carries the image id passed in and the raw class
index as its category id, and no category name. -/
def instancesToCocoJson (preds : List Prediction) (imgId : Nat) : List CocoRecord :=
  preds.map (fun p =>
    { imageId := some imgId
      categoryId := p.classIndex
      bbox := p.box
      score := p.score
      categoryName := none })

/-- The serialization loop of `gradio_predict` (app.py lines 144-146): for each
record, set `category_name` to the CategoryList entry at the record's
`category_id` and delete `image_id`.  A class index outside the CategoryList
is a Python `IndexError`, modelled as `none` (the whole request fails, no
partial result). -/
def serializeLoop (names : List (List Char)) : List CocoRecord → Option (List CocoRecord)
  | [] => some []
  | r :: rs =>
    match names[r.categoryId]?, serializeLoop names rs with
    | some n, some out =>
        some ({ r with categoryName := some n, imageId := none } :: out)
    | _, _ => none

/-- Embedding of `gradio_predict` (app.py lines 131-148): normalize the
category text, run the detector at the given score threshold (its raw
predictions `preds` are an opaque input, their thresholding modelled by
`filterByThreshold`), serialize via `instancesToCocoJson` with image id 0, and
run the record loop.  The returned value models the `json_results` output of
the handler; `none` is an uncaught Python exception. -/
def gradioPredict (text : List Char) (scoreThr : ℚ) (preds : List Prediction) :
    Option (List CocoRecord) :=
  serializeLoop (categoryNames text) (instancesToCocoJson (filterByThreshold scoreThr preds) 0)

/-- The startup flags of `get_parser` (app.py lines 36-94) that the claims
touch.  `confidenceThreshold` is the `--confidence-threshold` flag (default
0.5, lines 82-87); `samConfigFile` is `--sam-config-file` (default `None`). -/
structure Args where
  samConfigFile : Option (List Char)
  samInitCheckpoint : Option (List Char)
  confidenceThreshold : ℚ
deriving DecidableEq

/-- Whether `sam_predictor` is not `None` after startup (app.py lines
113-120): a SAM2 predictor is built exactly when a SAM config file was given
and the sam2 import succeeded (`SAM2_AVAILABLE`, lines 19-25). -/
def samPredictorIsSome (sam2Available : Bool) (args : Args) : Bool :=
  args.samConfigFile.isSome && sam2Available

/-- Visibility of the "With Segmentation" checkbox (app.py lines 207-210):
`visible=SAM2_AVAILABLE`, i.e. it depends only on the import, not on whether
`sam_predictor` was actually built. -/
def withSegmentationVisible (sam2Available : Bool) : Bool := sam2Available

/-- The initial value of the Score Threshold slider (app.py lines 198-205):
the literal `value=0.5`.  The parsed args are in scope there but are not
consulted. -/
def scoreThrSliderValue (_args : Args) : ℚ := 1 / 2

/-- One item of the list returned by the `clear.click` lambda (app.py line
222).  The lambda returns plain values for the first three outputs and the
`json_results` / `with_segmentation` component objects themselves (not
values) for the last two; a component object is kept as an opaque marker. -/
inductive OutItem where
  | noneVal : OutItem
  | textVal : List Char → OutItem
  | numVal : ℚ → OutItem
  | componentRef : List Char → OutItem
deriving DecidableEq

/-- The clear handler (app.py lines 221-225): a lambda returning, in output
order `[image, input_text, score_thr, json_results, with_segmentation]`, the
value `None`, the default vocabulary string, the literal 0.5, and the two
component objects.  The parsed args are in scope but not consulted; the
handler calls nothing (in particular no inference). -/
def clearHandler (cocoCategories : List Char) : List OutItem :=
  [OutItem.noneVal, OutItem.textVal cocoCategories, OutItem.numVal (1 / 2),
   OutItem.componentRef ("json_results".data), OutItem.componentRef ("with_segmentation".data)]

/-- The startup environment of the `__main__` block: whether the checkpoint
load of the detection model can succeed, whether the sam2 import succeeded,
and the parsed flags. -/
structure StartupEnv where
  checkpointLoadable : Bool
  sam2Available : Bool
  args : Args
deriving DecidableEq

/-- A startup failure. -/
inductive StartupError where
  | modelLoadFailure : StartupError
deriving DecidableEq

/-- The state reached when `app.launch` runs: the demo holds a loaded
detection model, possibly a SAM predictor, and the server is accepting
requests. -/
structure RunningApp where
  modelLoaded : Bool
  samPredictorSome : Bool
  launched : Bool
deriving DecidableEq

/-- Modelled from the spec: instantiating the detection model and loading its
checkpoint (app.py lines 106-111; `DetectionCheckpointer.load` is vendored
detectron2 code not under src/).  Spec §7(a): "model-load failure at startup —
fatal"; the step either succeeds or raises. -/
def loadModel (env : StartupEnv) : Except StartupError Unit :=
  if env.checkpointLoadable then Except.ok () else Except.error StartupError.modelLoadFailure

/-- Embedding of the `__main__` block sequencing (app.py lines 97-226): the
detection model is instantiated and its checkpoint loaded first; only then are
the SAM predictor, the demo object and the UI built, and `app.launch` — the
last statement — starts serving.  An exception while loading propagates, so
the launch is never reached. -/
def mainStartup (env : StartupEnv) : Except StartupError RunningApp :=
  match loadModel env with
  | Except.error e => Except.error e
  | Except.ok _ =>
    Except.ok
      { modelLoaded := true
        samPredictorSome := samPredictorIsSome env.sam2Available env.args
        launched := true }

/-- A sample raw prediction used in concrete checks: class 0 with full
confidence. -/
def samplePred : Prediction :=
  { classIndex := 0, score := 1, box := (0, 0, 1, 1) }

/-- The serialized record produced for `samplePred` on the category text
"cat, dog" at threshold 0: category 0 resolves to "cat" and the image id is
stripped. -/
def sampleRecord : CocoRecord :=
  { imageId := none
    categoryId := 0
    bbox := (0, 0, 1, 1)
    score := 1
    categoryName := some ("cat".data) }

/-- Sample parsed flags: no SAM config, default confidence threshold. -/
def sampleArgs : Args :=
  { samConfigFile := none, samInitCheckpoint := none, confidenceThreshold := 1 / 2 }

/-- A sample startup environment whose checkpoint load fails. -/
def sampleEnvLoadFail : StartupEnv :=
  { checkpointLoadable := false, sam2Available := false, args := sampleArgs }

/-! ### Lemmas about the splitter -/

lemma splitCommaSpace_ne_nil (s : List Char) : splitCommaSpace s ≠ [] := by
  induction s using splitCommaSpace.induct with
  | case1 => simp [splitCommaSpace]
  | case2 c => simp [splitCommaSpace]
  | case3 c1 c2 rest h ih => simp [splitCommaSpace, h]
  | case4 c1 c2 rest h hs ih => simp [splitCommaSpace, h, hs]
  | case5 c1 c2 rest h seg segs hs ih => simp [splitCommaSpace, h, hs]

lemma splitCommaSpace_cons_head (c : Char) (rest : List Char) :
    (∃ segs, splitCommaSpace (c :: rest) = [] :: segs) ∨
    (∃ t segs, splitCommaSpace (c :: rest) = (c :: t) :: segs) := by
  cases rest with
  | nil => exact Or.inr ⟨[], [], by simp [splitCommaSpace]⟩
  | cons c2 rest2 =>
    by_cases h : c = ',' ∧ c2 = ' '
    · exact Or.inl ⟨splitCommaSpace rest2, by simp [splitCommaSpace, h]⟩
    · cases hs : splitCommaSpace (c2 :: rest2) with
      | nil => exact absurd hs (splitCommaSpace_ne_nil _)
      | cons seg segs =>
        exact Or.inr ⟨seg, segs, by simp [splitCommaSpace, h, hs]⟩

lemma joinCommaSpace_cons_cons (c : Char) (seg : List Char) (segs : List (List Char)) :
    joinCommaSpace ((c :: seg) :: segs) = c :: joinCommaSpace (seg :: segs) := by
  cases segs <;> simp [joinCommaSpace]

lemma join_splitCommaSpace (s : List Char) :
    joinCommaSpace (splitCommaSpace s) = s := by
  induction s using splitCommaSpace.induct with
  | case1 => simp [splitCommaSpace, joinCommaSpace]
  | case2 c => simp [splitCommaSpace, joinCommaSpace]
  | case3 c1 c2 rest h ih =>
    obtain ⟨h1, h2⟩ := h
    subst h1; subst h2
    rw [show splitCommaSpace (',' :: ' ' :: rest) = [] :: splitCommaSpace rest from by
      simp [splitCommaSpace]]
    cases hs : splitCommaSpace rest with
    | nil => exact absurd hs (splitCommaSpace_ne_nil _)
    | cons seg segs =>
      rw [hs] at ih
      simpa [joinCommaSpace] using ih
  | case4 c1 c2 rest h hs ih => exact absurd hs (splitCommaSpace_ne_nil _)
  | case5 c1 c2 rest h seg segs hs ih =>
    rw [show splitCommaSpace (c1 :: c2 :: rest) = (c1 :: seg) :: segs from by
      simp [splitCommaSpace, h, hs]]
    rw [hs] at ih
    rw [joinCommaSpace_cons_cons, ih]

lemma splitCommaSpace_no_sep (s : List Char) :
    ∀ seg ∈ splitCommaSpace s, containsCommaSpace seg = false := by
  induction s using splitCommaSpace.induct with
  | case1 => simp [splitCommaSpace, containsCommaSpace]
  | case2 c => simp [splitCommaSpace, containsCommaSpace]
  | case3 c1 c2 rest h ih =>
    intro seg hseg
    rw [show splitCommaSpace (c1 :: c2 :: rest) = [] :: splitCommaSpace rest from by
      simp [splitCommaSpace, h]] at hseg
    rcases List.mem_cons.mp hseg with hseg2 | hseg2
    · subst hseg2; simp [containsCommaSpace]
    · exact ih seg hseg2
  | case4 c1 c2 rest h hs ih => exact absurd hs (splitCommaSpace_ne_nil _)
  | case5 c1 c2 rest h seg segs hs ih =>
    intro seg2 hseg2
    rw [show splitCommaSpace (c1 :: c2 :: rest) = (c1 :: seg) :: segs from by
      simp [splitCommaSpace, h, hs]] at hseg2
    rcases List.mem_cons.mp hseg2 with hseg3 | hseg3
    · subst hseg3
      have hhead := splitCommaSpace_cons_head c2 rest
      have hfirst : containsCommaSpace seg = false :=
        ih seg (by rw [hs]; exact List.mem_cons_self _ _)
      rcases hhead with ⟨segs2, hh⟩ | ⟨t, segs2, hh⟩
      · rw [hs] at hh
        have hseg0 : seg = [] := (List.cons.injEq _ _ _ _ ▸ hh).1
        subst hseg0
        simp [containsCommaSpace]
      · rw [hs] at hh
        have hseg0 : seg = c2 :: t := (List.cons.injEq _ _ _ _ ▸ hh).1
        subst hseg0
        have hb : (c1 = ',' && c2 = ' ') = false := by
          rcases Decidable.em (c1 = ',') with h1 | h1
          · rcases Decidable.em (c2 = ' ') with h2 | h2
            · exact absurd ⟨h1, h2⟩ h
            · simp [h2]
          · simp [h1]
        simp [containsCommaSpace, hb, hfirst]
    · exact ih seg2 (by rw [hs]; exact List.mem_cons_of_mem _ hseg3)

/-! ### Lemmas about the serializer -/

lemma serializeLoop_ok (names : List (List Char)) :
    ∀ rs : List CocoRecord, (∀ r ∈ rs, r.categoryId < names.length) →
      ∃ out, serializeLoop names rs = some out := by
  intro rs
  induction rs with
  | nil => intro _; exact ⟨[], rfl⟩
  | cons r rs ih =>
    intro hall
    have hr : r.categoryId < names.length := hall r (List.mem_cons_self _ _)
    obtain ⟨out, hout⟩ := ih (fun x hx => hall x (List.mem_cons_of_mem _ hx))
    have hg : names[r.categoryId]? = some (names.get ⟨r.categoryId, hr⟩) := by
      rw [List.getElem?_eq_getElem hr]
      simp [List.get_eq_getElem]
    exact ⟨{ r with categoryName := some (names.get ⟨r.categoryId, hr⟩), imageId := none } :: out,
      by simp [serializeLoop, hg, hout]⟩

lemma serializeLoop_mem (names : List (List Char)) :
    ∀ rs out, serializeLoop names rs = some out →
      ∀ r ∈ out, r.imageId = none ∧ r.categoryId < names.length ∧
        r.categoryName = names[r.categoryId]? := by
  intro rs
  induction rs with
  | nil =>
    intro out hout r hr
    simp only [serializeLoop, Option.some.injEq] at hout
    subst hout
    exact absurd hr (List.not_mem_nil _)
  | cons r rs ih =>
    intro out hout r2 hr2
    cases hn : names[r.categoryId]? with
    | none => simp [serializeLoop, hn] at hout
    | some n =>
      cases hrec : serializeLoop names rs with
      | none => simp [serializeLoop, hn, hrec] at hout
      | some out2 =>
        have hout2 : out = { r with categoryName := some n, imageId := none } :: out2 := by
          simp [serializeLoop, hn, hrec] at hout
          exact hout.symm
        subst hout2
        rcases List.mem_cons.mp hr2 with h2 | h2
        · subst h2
          have hlt : r.categoryId < names.length := by
            rcases List.getElem?_eq_some.mp hn with ⟨hl, _⟩
            exact hl
          exact ⟨rfl, hlt, by simpa using hn.symm⟩
        · exact ih out2 hrec r2 h2

/-! ### The claims -/

/-- C1 (amended): the Category Normalizer keeps every comma-space-delimited
segment — also segments that clean to the empty phrase — so the output length
equals the number of segments of the split, and the entry at each position is
the cleaned segment at that position (original order). -/
theorem claim_C1 (text : List Char) (i : Nat) :
    (categoryNames text).length = (splitCommaSpace text).length ∧
    (categoryNames text)[i]? =
      Option.map cleanWordsOrPhrase ((splitCommaSpace text)[i]?) := by
  constructor
  · simp [categoryNames]
  · simp [categoryNames]

/-- C1 counterexample: on the input "a, , b" the middle segment cleans to the
empty phrase but is kept, so the normalizer output has length 3 while only
two cleaned comma-delimited segments are non-empty. -/
theorem claim_C1_counterexample :
    (categoryNames ("a, , b".data)).length ≠
      (((splitCommaSpace ("a, , b".data)).map cleanWordsOrPhrase).filter
        (fun seg => !seg.isEmpty)).length := by
  decide

/-- C2 (amended): the checkbox visibility tracks only `SAM2_AVAILABLE`: when
the sam2 import failed, `sam_predictor` is `None` and the "with segmentation"
control is hidden.  (When the import succeeds but no SAM config is given the
predictor is also `None`, yet the control stays visible — see the
counterexample.) -/
theorem claim_C2 (a : Bool) (args : Args) (h : a = false) :
    samPredictorIsSome a args = false ∧ withSegmentationVisible a = false := by
  subst h
  exact ⟨by simp [samPredictorIsSome], rfl⟩

/-- C2 witness: the import-failed case at concrete flags. -/
theorem claim_C2_witness :
    samPredictorIsSome false sampleArgs = false ∧
    withSegmentationVisible false = false :=
  claim_C2 false sampleArgs rfl

/-- C2 counterexample: with the sam2 library importable but no
`--sam-config-file`, `sam_predictor` is `None` while the "with segmentation"
checkbox is still visible, so a segmentation request can reach the pipeline
with no predictor. -/
theorem claim_C2_counterexample :
    samPredictorIsSome true sampleArgs = false ∧
    withSegmentationVisible true = true := by
  constructor <;> rfl

/-- C4: every record returned by `gradio_predict` has the `image_id` key
removed; only detection content remains. -/
theorem claim_C4 (text : List Char) (thr : ℚ) (preds : List Prediction)
    (out : List CocoRecord) (r : CocoRecord)
    (hout : gradioPredict text thr preds = some out) (hr : r ∈ out) :
    r.imageId = none :=
  (serializeLoop_mem (categoryNames text) _ out hout r hr).1

/-- C4 witness: a concrete one-detection request. -/
theorem claim_C4_witness : sampleRecord.imageId = none :=
  claim_C4 ("cat, dog".data) 0 [samplePred] [sampleRecord] sampleRecord
    (by decide) (by decide)

/-- C5: each record in the serialized output carries as `category_name` the
entry of this request's normalized CategoryList at the record's category id:
the index is resolved at serialization time against `categoryNames text`. -/
theorem claim_C5 (text : List Char) (thr : ℚ) (preds : List Prediction)
    (out : List CocoRecord) (r : CocoRecord)
    (hout : gradioPredict text thr preds = some out) (hr : r ∈ out) :
    ∃ h : r.categoryId < (categoryNames text).length,
      r.categoryName = some ((categoryNames text).get ⟨r.categoryId, h⟩) := by
  obtain ⟨-, hlt, hname⟩ := serializeLoop_mem (categoryNames text) _ out hout r hr
  refine ⟨hlt, ?_⟩
  rw [hname, List.getElem?_eq_getElem hlt]
  simp [List.get_eq_getElem]

/-- C5 witness: on "cat, dog", the record for class 0 is named "cat". -/
theorem claim_C5_witness :
    ∃ h : sampleRecord.categoryId < (categoryNames ("cat, dog".data)).length,
      sampleRecord.categoryName =
        some ((categoryNames ("cat, dog".data)).get ⟨sampleRecord.categoryId, h⟩) :=
  claim_C5 ("cat, dog".data) 0 [samplePred] [sampleRecord] sampleRecord
    (by decide) (by decide)

/-- C6 (amended): `gradio_predict` performs no validation of the normalized
category text: empty phrases are passed onward in the CategoryList, and the
request succeeds — no request-level error — whenever every prediction's class
index is in range, even when the list contains an empty phrase. -/
theorem claim_C6 (text : List Char) (thr : ℚ) (preds : List Prediction)
    (h : ∀ p ∈ preds, p.classIndex < (categoryNames text).length) :
    ∃ out, gradioPredict text thr preds = some out := by
  apply serializeLoop_ok
  intro r hr
  obtain ⟨p, hp, hpr⟩ := List.mem_map.mp hr
  subst hpr
  simp only [filterByThreshold] at hp
  exact h p (List.mem_of_mem_filter hp)

/-- C6 witness: the request on "a, , b" — whose middle phrase is empty after
cleaning — succeeds, even with a detection of that empty category. -/
theorem claim_C6_witness :
    ∃ out, gradioPredict ("a, , b".data) 0
      [{ classIndex := 1, score := 1, box := (0, 0, 1, 1) }] = some out :=
  claim_C6 ("a, , b".data) 0
    [{ classIndex := 1, score := 1, box := (0, 0, 1, 1) }] (by decide)

/-- C6 counterexample: on the category text "a, , b" the middle phrase is
empty after normalization, yet the empty phrase is in the CategoryList passed
onward and the request runs to completion (here returning a record whose
category name is the empty phrase) instead of failing. -/
theorem claim_C6_counterexample :
    ([] ∈ categoryNames ("a, , b".data)) ∧
    gradioPredict ("a, , b".data) 0
      [{ classIndex := 1, score := 1, box := (0, 0, 1, 1) }] =
      some [{ imageId := none, categoryId := 1, bbox := (0, 0, 1, 1), score := 1,
              categoryName := some [] }] := by
  constructor
  · decide
  · decide

/-- C7: for the same raw model output, lowering the confidence threshold
never decreases the number of predictions kept by the per-call filter. -/
theorem claim_C7 (t1 t2 : ℚ) (preds : List Prediction) (h : t1 ≤ t2) :
    (filterByThreshold t2 preds).length ≤ (filterByThreshold t1 preds).length := by
  have hsub : List.Sublist (filterByThreshold t2 preds) (filterByThreshold t1 preds) := by
    apply List.monotone_filter_right
    intro p hp
    simp only [decide_eq_true_eq] at hp ⊢
    exact le_trans h hp
  exact hsub.length_le

/-- C7 witness: thresholds 0 ≤ 1/2 on the sample prediction. -/
theorem claim_C7_witness :
    (0 : ℚ) ≤ 1 / 2 ∧
    (filterByThreshold (1 / 2) [samplePred]).length ≤
      (filterByThreshold 0 [samplePred]).length :=
  ⟨by norm_num, claim_C7 0 (1 / 2) [samplePred] (by norm_num)⟩

/-- C8: the `__main__` sequencing loads the detection model before serving: a
checkpoint-load failure makes startup fail with that error (the launch is
never reached), and any running app was launched with the model loaded after
a successful load. -/
theorem claim_C8 (env : StartupEnv) :
    (∀ e, loadModel env = Except.error e → mainStartup env = Except.error e) ∧
    (∀ app, mainStartup env = Except.ok app →
      app.modelLoaded = true ∧ app.launched = true ∧ loadModel env = Except.ok ()) := by
  constructor
  · intro e he
    simp [mainStartup, he]
  · intro app happ
    cases hl : loadModel env with
    | error e =>
      simp [mainStartup, hl] at happ
    | ok u =>
      cases u
      simp only [mainStartup, hl] at happ
      injection happ with h
      subst h
      exact ⟨rfl, rfl, rfl⟩

/-- C8 witness: a startup whose checkpoint load fails ends in the load error
and never launches. -/
theorem claim_C8_witness :
    mainStartup sampleEnvLoadFail = Except.error StartupError.modelLoadFailure :=
  (claim_C8 sampleEnvLoadFail).1 StartupError.modelLoadFailure rfl

/-- C9: the category splitter separates exactly at occurrences of the
two-character delimiter comma-space: joining the segments with it
reconstructs the input, and no segment contains the delimiter — so a comma
not followed by a space stays inside a single category phrase. -/
theorem claim_C9 (s : List Char) :
    joinCommaSpace (splitCommaSpace s) = s ∧
    ∀ seg ∈ splitCommaSpace s, containsCommaSpace seg = false :=
  ⟨join_splitCommaSpace s, splitCommaSpace_no_sep s⟩

/-- C9 witness: "a,b, c" splits into the two segments "a,b" and "c"; the
space-less comma stays inside the first phrase. -/
theorem claim_C9_witness :
    joinCommaSpace (splitCommaSpace ("a,b, c".data)) = "a,b, c".data ∧
    containsCommaSpace ("a,b".data) = false :=
  ⟨(claim_C9 ("a,b, c".data)).1,
   (claim_C9 ("a,b, c".data)).2 ("a,b".data) (by decide)⟩

/-- C10: the UI threshold is independent of the `--confidence-threshold`
flag: for any parsed flags the slider starts at the constant 0.5, and the
clear handler's `score_thr` output is the constant 0.5, computed from no
flag at all. -/
theorem claim_C10 (a1 a2 : Args) (coco : List Char) :
    scoreThrSliderValue a1 = 1 / 2 ∧
    scoreThrSliderValue a1 = scoreThrSliderValue a2 ∧
    (clearHandler coco)[2]? = some (OutItem.numVal (1 / 2)) :=
  ⟨rfl, rfl, rfl⟩

end OVDinoDemo
